import Mathlib

/-
  Verification development for the find-main-content package (src/index.js).

  The JavaScript source is shallowly embedded: the cheerio document tree is an
  inductive tree of element / text / comment nodes, selector queries and node
  removal are recursive functions on that tree, numeric scores are rationals,
  and the few places where JavaScript number semantics matter (string-to-number
  coercion, division by zero producing NaN or Infinity) are modelled explicitly.
  Trees are always small and every definition is structural, so theorems about
  concrete documents evaluate by rfl or decide.
-/

set_option autoImplicit false

namespace FMC

/-! ## JavaScript string helpers -/

/-- ASCII whitespace: space, newline, tab, carriage return, vertical tab and
form feed; stands for the regex class backslash-s of the source and for the
set trimmed by String.prototype.trim and by Number() coercion. -/
def isWsChar (c : Char) : Bool :=
  c = ' ' || c = '\n' || c = '\t' || c = '\r' || c = '\x0b' || c = '\x0c'

def trimChars (l : List Char) : List Char :=
  ((l.dropWhile isWsChar).reverse.dropWhile isWsChar).reverse

def trimStr (s : String) : String := String.mk (trimChars s.data)

def lowerStr (s : String) : String := String.mk (s.data.map Char.toLower)

def upperStr (s : String) : String := String.mk (s.data.map Char.toUpper)

/-- The length of a JavaScript string (code units; our documents are ASCII). -/
def strLen (s : String) : Nat := s.data.length

/-- Collapse every whitespace run to a single space and trim, as in
removeExtraChars of the source: s.replace with the whitespace regex, then trim. -/
def squashSpaces : List Char → List Char
  | [] => []
  | [c] => [c]
  | a :: b :: r =>
    if a = ' ' && b = ' ' then squashSpaces (b :: r) else a :: squashSpaces (b :: r)

def collapseWsChars (l : List Char) : List Char :=
  trimChars (squashSpaces (l.map (fun c => if isWsChar c then ' ' else c)))

def decVal (c : Char) : Nat := c.toNat - 48

def hexVal (c : Char) : Nat :=
  if c.isDigit then c.toNat - 48
  else if 'a' ≤ c ∧ c ≤ 'f' then c.toNat - 87
  else c.toNat - 55

def isHexDigit (c : Char) : Bool :=
  c.isDigit || ('a' ≤ c && c ≤ 'f') || ('A' ≤ c && c ≤ 'F')

def isOctDigit (c : Char) : Bool := '0' ≤ c && c ≤ '7'

def isBinDigit (c : Char) : Bool := c = '0' || c = '1'

/-- Value of a digit string in the given base. -/
def radixVal (b : Nat) (f : Char → Nat) (l : List Char) : Nat :=
  l.foldl (fun a c => a * b + f c) 0

def allDigits (l : List Char) : Bool := !l.isEmpty && l.all Char.isDigit

def tenPow : Nat → Int
  | 0 => 1
  | k + 1 => 10 * tenPow k

/-- The result of coercing a string to a JavaScript number: NaN, an explicit
infinity from a literal Infinity, or a finite value represented exactly as a
mantissa times a power of ten (so it stays kernel-computable). -/
inductive JsStrNum where
  | nan
  | posInf
  | negInf
  | finite (m : Int) (e : Int)
deriving DecidableEq

/-- The decimal-literal part of the Number() grammar: digits with an optional
fraction and an optional integer exponent (e or E, optional sign, at least
one digit), at least one digit overall, nothing else; returns the mantissa
and the power-of-ten exponent. -/
def parseDec (l : List Char) : Option (Nat × Int) :=
  let mp := l.takeWhile (fun c => !(c = 'e' || c = 'E'))
  let er := l.dropWhile (fun c => !(c = 'e' || c = 'E'))
  let expPart : Option Int :=
    match er with
    | [] => some 0
    | _ :: es =>
      match es with
      | '+' :: ds => if allDigits ds then some ((radixVal 10 decVal ds : Nat) : Int) else none
      | '-' :: ds => if allDigits ds then some (-((radixVal 10 decVal ds : Nat) : Int)) else none
      | ds => if allDigits ds then some ((radixVal 10 decVal ds : Nat) : Int) else none
  match expPart with
  | none => none
  | some ex =>
    let ip := mp.takeWhile (fun c => !(c = '.'))
    let fr := mp.dropWhile (fun c => !(c = '.'))
    match fr with
    | [] => if allDigits ip then some (radixVal 10 decVal ip, ex) else none
    | _ :: fd =>
      if ip.all Char.isDigit && fd.all Char.isDigit && (!ip.isEmpty || !fd.isEmpty) then
        some (radixVal 10 decVal (ip ++ fd), ex - (fd.length : Int))
      else none

/-- A signless numeric remainder: the literal Infinity or a decimal literal. -/
def decUnsigned (sign : Int) (l : List Char) : JsStrNum :=
  if l = ("Infinity".data) then
    (if sign = 1 then .posInf else .negInf)
  else
    match parseDec l with
    | some pr => .finite (sign * (pr.1 : Int)) pr.2
    | none => .nan

/-- An optional leading sign followed by Infinity or a decimal literal. -/
def decSigned (l : List Char) : JsStrNum :=
  match l with
  | '+' :: r => decUnsigned 1 r
  | '-' :: r => decUnsigned (-1) r
  | r => decUnsigned 1 r

/-- JavaScript Number(s) coercion on strings (the ToNumber string grammar):
trim whitespace; the empty remainder is 0; a 0x, 0o or 0b prefix introduces a
hexadecimal, octal or binary integer (no sign allowed); otherwise an optional
sign precedes the literal Infinity or a decimal literal with optional
fraction and integer exponent; everything else is NaN.  Finite values are
kept exact (mantissa times a power of ten) rather than rounded to binary64,
so double rounding and overflow to Infinity are not modelled: every threshold
comparison the program makes agrees with JavaScript unless the exact value
and its nearest double straddle the threshold, which no realistic paragraph
text does. -/
def jsStrToNum (s : String) : JsStrNum :=
  match trimChars s.data with
  | [] => .finite 0 0
  | l =>
    match l with
    | '0' :: c :: rest =>
      if c = 'x' ∨ c = 'X' then
        (if !rest.isEmpty && rest.all isHexDigit then
          .finite ((radixVal 16 hexVal rest : Nat) : Int) 0 else .nan)
      else if c = 'o' ∨ c = 'O' then
        (if !rest.isEmpty && rest.all isOctDigit then
          .finite ((radixVal 8 decVal rest : Nat) : Int) 0 else .nan)
      else if c = 'b' ∨ c = 'B' then
        (if !rest.isEmpty && rest.all isBinDigit then
          .finite ((radixVal 2 decVal rest : Nat) : Int) 0 else .nan)
      else decSigned l
    | _ => decSigned l

/-- Is the coerced value strictly below the integer n: false for NaN and
positive Infinity, true for negative Infinity, and for a finite mantissa
times a power of ten the exact comparison done by cross-multiplication (so
it reduces in the kernel). -/
def jsStrNumLt (x : JsStrNum) (n : Int) : Bool :=
  match x with
  | .nan => false
  | .posInf => false
  | .negInf => true
  | .finite m e =>
    if 0 ≤ e then decide (m * tenPow e.toNat < n)
    else decide (m < n * tenPow (-e).toNat)

/-- The source compares a paragraph text against MIN_CHARS with the raw
less-than operator; in JavaScript the string is coerced to a number first and
a NaN comparison is false. -/
def jsLtNum (s : String) (n : Int) : Bool := jsStrNumLt (jsStrToNum s) n

/-- Evaluation checks pinning the Number() model on representative inputs:
integers, signed and padded forms, decimals, exponents, the three radix
prefixes, the infinities, and non-numeric texts. -/
theorem jsStrToNum_checks :
    jsStrToNum "" = JsStrNum.finite 0 0 ∧
    jsStrToNum "  12  " = JsStrNum.finite 12 0 ∧
    jsStrToNum "-7" = JsStrNum.finite (-7) 0 ∧
    jsStrToNum "+3" = JsStrNum.finite 3 0 ∧
    jsStrToNum "12.5" = JsStrNum.finite 125 (-1) ∧
    jsStrToNum "12." = JsStrNum.finite 12 0 ∧
    jsStrToNum ".5" = JsStrNum.finite 5 (-1) ∧
    jsStrToNum "1e3" = JsStrNum.finite 1 3 ∧
    jsStrToNum "2.5e-2" = JsStrNum.finite 25 (-3) ∧
    jsStrToNum "0x1F" = JsStrNum.finite 31 0 ∧
    jsStrToNum "0b101" = JsStrNum.finite 5 0 ∧
    jsStrToNum "0o17" = JsStrNum.finite 15 0 ∧
    jsStrToNum "Infinity" = JsStrNum.posInf ∧
    jsStrToNum "-Infinity" = JsStrNum.negInf ∧
    jsStrToNum "+0x10" = JsStrNum.nan ∧
    jsStrToNum "short words" = JsStrNum.nan ∧
    jsStrToNum "12.5.3" = JsStrNum.nan ∧
    jsStrToNum "1e" = JsStrNum.nan ∧
    jsLtNum "12.5" 25 = true ∧
    jsLtNum "25" 25 = false ∧
    jsLtNum "-Infinity" 25 = true ∧
    jsLtNum "Infinity" 25 = false ∧
    jsLtNum "short words" 25 = false ∧
    jsLtNum "" 25 = true := by
  decide

/-- Number of segments of text.split with a comma, which is the comma count
plus one (plain string split, empties kept). -/
def commaSegments (s : String) : Nat :=
  (s.data.filter (fun c => c = ',')).length + 1

def listStarts : List Char → List Char → Bool
  | [], _ => true
  | _ :: _, [] => false
  | a :: as, b :: bs => a = b && listStarts as bs

/-- Does pattern occur as a contiguous sublist of l. -/
def hasSub (pat l : List Char) : Bool :=
  (List.range (l.length + 1)).any (fun i => listStarts pat (l.drop i))

/-- Case-insensitive substring test; a regex alternation of literal words
matches a string exactly when some word is a substring of it. -/
def containsWordCI (attrVal w : String) : Bool :=
  hasSub (w.data.map Char.toLower) (attrVal.data.map Char.toLower)

/- Splitting on maximal runs of separator characters, as a regex split with a
one-or-more character class does: interior runs act as one separator while a
leading or trailing run contributes one empty piece. -/
mutual
def splitRunsGo (p : Char → Bool) (cur : List Char) : List Char → List (List Char)
  | [] => [cur.reverse]
  | c :: cs =>
    if p c then cur.reverse :: splitRunsSkip p cs else splitRunsGo p (c :: cur) cs
def splitRunsSkip (p : Char → Bool) : List Char → List (List Char)
  | [] => [[]]
  | c :: cs => if p c then splitRunsSkip p cs else splitRunsGo p [c] cs
end

def splitRuns (p : Char → Bool) (l : List Char) : List (List Char) :=
  splitRunsGo p [] l

/-- removeTags splits the caller-supplied list on commas and newlines. -/
def splitTagList (s : String) : List String :=
  (splitRuns (fun c => c = ',' || c = '\n') s.data).map String.mk

/-- Whitespace-separated tokens of a class attribute. -/
def wsTokens (s : String) : List String :=
  ((splitRuns isWsChar s.data).map String.mk).filter (fun t => t ≠ "")

/-! ## The document tree -/

/-- A cheerio document node: an element with tag name, attribute list and
children, a text node, or a comment node. -/
inductive Node where
  | elem (tag : String) (attrs : List (String × String)) (children : List Node)
  | text (s : String)
  | comment (s : String)

def Node.tagOf : Node → Option String
  | .elem t _ _ => some t
  | _ => none

def Node.attr (a : String) : Node → Option String
  | .elem _ attrs _ => (attrs.find? (fun p => p.1 = a)).map (fun p => p.2)
  | _ => none

def Node.kids : Node → List Node
  | .elem _ _ cs => cs
  | _ => []

/- Concatenated text of a node and its descendants (comments excluded),
as the cheerio text method computes it. -/
mutual
def Node.textOf : Node → String
  | .text s => s
  | .comment _ => ""
  | .elem _ _ cs => textOfL cs
def textOfL : List Node → String
  | [] => ""
  | c :: cs => Node.textOf c ++ textOfL cs
end

/- Proper element descendants in document (pre-) order, the node set a
cheerio find call ranges over. -/
mutual
def Node.desc : Node → List Node
  | .elem _ _ cs => descL cs
  | _ => []
def descL : List Node → List Node
  | [] => []
  | c :: cs =>
    (match c with | .elem _ _ _ => [c] | _ => []) ++ Node.desc c ++ descL cs
end

/-! ## Selectors -/

/-- The simple selectors appearing in the source: a tag name, a class, an id,
or a tag with one attribute value (used for the meta description query). -/
inductive Sel where
  | tagS (t : String)
  | clsS (c : String)
  | idSel (i : String)
  | tagAttrS (t a v : String)

def selMatch : Sel → Node → Bool
  | .tagS t, n => decide (n.tagOf = some t)
  | .clsS c, n =>
    match n.attr "class" with
    | some s => (wsTokens s).contains c
    | none => false
  | .idSel i, n => decide (n.attr "id" = some i)
  | .tagAttrS t a v, n => decide (n.tagOf = some t) && decide (n.attr a = some v)

def matchesAny (sels : List Sel) (n : Node) : Bool := sels.any (fun s => selMatch s n)

/-- All proper descendants matching one of the selectors, in document order. -/
def findAll (sels : List Sel) (n : Node) : List Node :=
  n.desc.filter (matchesAny sels)

/-! ## Node removal -/

/- Remove every descendant whose subtree root satisfies p (the whole subtree
goes); the decision for each node is taken on the node as it stood when the
matching selection was computed, which coincides with this top-down recursion. -/
mutual
def removeMatching (p : Node → Bool) : Node → Node
  | .elem t a cs => .elem t a (removeMatchingL p cs)
  | n => n
def removeMatchingL (p : Node → Bool) : List Node → List Node
  | [] => []
  | c :: cs =>
    (if p c then [] else [removeMatching p c]) ++ removeMatchingL p cs
end

/- Remove every comment node of the subtree. -/
mutual
def removeComments : Node → Node
  | .elem t a cs => .elem t a (removeCommentsL cs)
  | n => n
def removeCommentsL : List Node → List Node
  | [] => []
  | c :: cs =>
    (match c with | .comment _ => [] | c2 => [removeComments c2]) ++ removeCommentsL cs
end

/-! ## JavaScript numbers for the link-density computation

The accumulation of content scores only ever adds rationals, but the division
in getLinkDensity can produce NaN (0 / 0) or Infinity (positive / 0), and
getTopCandidate multiplies stored scores by one minus that density.  JsNum
captures exactly the values that can appear there. -/

inductive JsNum where
  | nan
  | posInf
  | negInf
  | val (q : Rat)
deriving DecidableEq

def jsOneMinus : JsNum → JsNum
  | .nan => .nan
  | .posInf => .negInf
  | .negInf => .posInf
  | .val q => .val (1 - q)

def jsMulRat (a : Rat) : JsNum → JsNum
  | .nan => .nan
  | .posInf => if 0 < a then .posInf else if a < 0 then .negInf else .nan
  | .negInf => if 0 < a then .negInf else if a < 0 then .posInf else .nan
  | .val q => .val (a * q)

/-- The JavaScript strict greater-than on these numbers: any comparison with
NaN is false, Infinity exceeds everything but itself, negative Infinity
exceeds nothing. -/
def jsGt : JsNum → JsNum → Bool
  | .nan, _ => false
  | _, .nan => false
  | .posInf, .posInf => false
  | .posInf, _ => true
  | .negInf, _ => false
  | .val _, .posInf => false
  | .val _, .negInf => true
  | .val a, .val b => decide (b < a)

def jsGtRat (x : JsNum) (r : Rat) : Bool := jsGt x (.val r)

/-! ## Shared heuristics: class weight and link density -/

def POSITIVE_WORDS : List String :=
  ["article", "body", "content", "entry", "hentry", "page", "pagination", "post", "text"]

def NEGATIVE_WORDS : List String :=
  ["combx", "comment", "contact", "foot", "footer", "footnote", "link", "media",
   "meta", "promo", "related", "scroll", "shoutbox", "sponsor", "tags", "widget"]

def matchesWords (ws : List String) (s : String) : Bool :=
  ws.any (fun w => containsWordCI s w)

/-- getClassWeight of the source: the class and the id attribute are each
checked against the negative and the positive pattern, contributing minus or
plus 25 independently. -/
def getClassWeight (e : Node) : Int :=
  let w1 : Int :=
    match e.attr "class" with
    | some c =>
      if c ≠ "" then
        (if matchesWords NEGATIVE_WORDS c then (-25 : Int) else 0)
          + (if matchesWords POSITIVE_WORDS c then (25 : Int) else 0)
      else 0
    | none => 0
  let w2 : Int :=
    match e.attr "id" with
    | some i =>
      if i ≠ "" then
        (if matchesWords NEGATIVE_WORDS i then (-25 : Int) else 0)
          + (if matchesWords POSITIVE_WORDS i then (25 : Int) else 0)
      else 0
    | none => 0
  w1 + w2

/-- getContentScore of the source.  Only the first comparison uppercases the
tag name; the later list membership tests compare the raw (lowercase, since
the parser lowercases tag names) name against uppercase entries, so on parsed
documents every branch but the DIV one is dead.  Embedded as written. -/
def getContentScore (name : String) : Int :=
  if upperStr name = "DIV" then 5
  else if ["PRE", "TD", "BLOCKQUOTE"].contains name then 3
  else if ["ADDRESS", "OL", "UL", "DL", "DD", "DT", "LI", "FORM"].contains name then -3
  else if ["H1", "H2", "H3", "H4", "H5", "H6", "TH"].contains name then -5
  else 0

/-- Total text length of all descendant anchors, without whitespace collapsing. -/
def linkTextLen (e : Node) : Nat :=
  ((findAll [Sel.tagS "a"] e).map (fun a => strLen a.textOf)).foldl (fun x y => x + y) 0

/-- Length of the element text after whitespace collapsing and trimming. -/
def collapsedTextLen (e : Node) : Nat := (collapseWsChars e.textOf.data).length

/-- getLinkDensity of the source: anchor text length divided by collapsed text
length; in JavaScript 0 / 0 is NaN and a positive numerator over 0 is
Infinity. -/
def getLinkDensity (e : Node) : JsNum :=
  let tl := collapsedTextLen e
  let ll := linkTextLen e
  if tl = 0 then (if ll = 0 then .nan else .posInf)
  else .val ((ll : Rat) / (tl : Rat))

/-! ## Options

The caller passes a plain object; option keys it omits are absent.  The source
merges it as the object spread of o followed by defaultOptions, so a key that
defaultOptions defines always ends up with its default value. -/

structure UserOptions where
  useFirstH1 : Option Bool := none
  removeH1FromContent : Option Bool := none
  removeHeadersWithoutText : Option Bool := none
  removeImages : Option Bool := none
  removeFigcaptions : Option Bool := none
  replaceLinks : Option Bool := none
  removeForm : Option Bool := none
  removeEmptyTag : Option Bool := none
  removeTags : Option String := none
  htmlSelector : Option String := none

/-- defaultOptions of the source; it defines the eight boolean keys and
neither removeTags nor htmlSelector. -/
def defaultOptions : UserOptions :=
  { useFirstH1 := some true
    removeH1FromContent := some true
    removeHeadersWithoutText := some true
    removeImages := some true
    removeFigcaptions := some true
    replaceLinks := some true
    removeForm := some false
    removeEmptyTag := some false }

/-- The object spread of a followed by b: keys present in b win. -/
def spreadOpts (a b : UserOptions) : UserOptions :=
  { useFirstH1 := b.useFirstH1 <|> a.useFirstH1
    removeH1FromContent := b.removeH1FromContent <|> a.removeH1FromContent
    removeHeadersWithoutText := b.removeHeadersWithoutText <|> a.removeHeadersWithoutText
    removeImages := b.removeImages <|> a.removeImages
    removeFigcaptions := b.removeFigcaptions <|> a.removeFigcaptions
    replaceLinks := b.replaceLinks <|> a.replaceLinks
    removeForm := b.removeForm <|> a.removeForm
    removeEmptyTag := b.removeEmptyTag <|> a.removeEmptyTag
    removeTags := b.removeTags <|> a.removeTags
    htmlSelector := b.htmlSelector <|> a.htmlSelector }

/-- The effective options read by the rest of the pipeline; an absent boolean
key reads as JavaScript undefined, which is falsy. -/
structure Options where
  useFirstH1 : Bool
  removeH1FromContent : Bool
  removeHeadersWithoutText : Bool
  removeImages : Bool
  removeFigcaptions : Bool
  replaceLinks : Bool
  removeForm : Bool
  removeEmptyTag : Bool
  removeTags : Option String
  htmlSelector : Option String

def toEffective (u : UserOptions) : Options :=
  { useFirstH1 := u.useFirstH1.getD false
    removeH1FromContent := u.removeH1FromContent.getD false
    removeHeadersWithoutText := u.removeHeadersWithoutText.getD false
    removeImages := u.removeImages.getD false
    removeFigcaptions := u.removeFigcaptions.getD false
    replaceLinks := u.replaceLinks.getD false
    removeForm := u.removeForm.getD false
    removeEmptyTag := u.removeEmptyTag.getD false
    removeTags := u.removeTags
    htmlSelector := u.htmlSelector }

/-- Line 79 of the source: const options is the spread of o then
defaultOptions, in that order. -/
def mergeOptions (o : UserOptions) : Options :=
  toEffective (spreadOpts o defaultOptions)

/-! ## The document and the metadata extractor -/

/-- A parsed page: the head element and the body element.  Queries against
the whole document range over both; the body-scoped queries of the source
range over the body subtree. -/
structure Doc where
  head : Node
  body : Node

def docElems (d : Doc) : List Node :=
  ([d.head] ++ d.head.desc) ++ ([d.body] ++ d.body.desc)

def docFindAll (sels : List Sel) (d : Doc) : List Node :=
  (docElems d).filter (matchesAny sels)

/-- getTitle: the cheerio selection object is always truthy, so the null
branch of the source is dead and the text of all title matches is returned
(empty when there is none). -/
def getTitle (d : Doc) : String :=
  textOfL (docFindAll [Sel.tagS "title"] d)

/-- getDescription: the content attribute of the first matching meta element;
undefined (none) when there is no match or no attribute. -/
def getDescription (d : Doc) : Option String :=
  (docFindAll [Sel.tagAttrS "meta" "name" "description"] d).head?.bind
    (fun m => m.attr "content")

def bodyH1Texts (d : Doc) : List String :=
  (findAll [Sel.tagS "h1"] d.body).map Node.textOf

/-- The each-loop of getFirstH1: push each h1 text that is truthy and not the
empty string (both conditions collapse to being nonempty; no trimming
happens, removeLineBreakTabs returns its argument unchanged). -/
def collectNonEmpty : List String → List String
  | [] => []
  | t :: r => (if t ≠ "" then [t] else []) ++ collectNonEmpty r

/-- getFirstH1: the shift call on the collected list, undefined (none) when
every h1 text is empty. -/
def getFirstH1 (d : Doc) : Option String :=
  (collectNonEmpty (bodyH1Texts d)).head?

/-- getH1 of the source: zero h1 elements give the empty string, one h1 or
the useFirstH1 flag dispatch to getFirstH1, anything else gives the empty
string. -/
def getH1 (d : Doc) (useFirstH1 : Bool) : Option String :=
  let n := (findAll [Sel.tagS "h1"] d.body).length
  if n = 0 then some ""
  else if n = 1 ∨ useFirstH1 = true then getFirstH1 d
  else some ""

/-! ## The tree sanitizer (cleanHTML) -/

def BAD_TAG_LIST : List String :=
  ["script", "link", "header", "style", "noscript", "object", "footer", "nav",
   "iframe", "br", "svg"]

def BAD_CLASS_SELS : List Sel :=
  [.clsS "combx", .clsS "comment", .clsS "disqus", .clsS "foot", .clsS "header",
   .clsS "menu", .clsS "meta", .clsS "nav", .clsS "rss", .clsS "shoutbox",
   .clsS "sidebar", .clsS "sponsor", .clsS "ssba", .clsS "bctt-click-to-tweet",
   .clsS "promo", .clsS "promotion"]

def BAD_ID_SELS : List Sel :=
  [.idSel "combx", .idSel "comments", .idSel "disqus", .idSel "foot",
   .idSel "header", .idSel "menu", .idSel "meta", .idSel "nav", .idSel "rss",
   .idSel "shoutbox", .idSel "sidebar", .idSel "sponsor", .idSel "promo",
   .idSel "promotion", .idSel "ads"]

/-- The HEADERS constant of the source lists h1 through h7. -/
def HEADER_TAGS : List String := ["h1", "h2", "h3", "h4", "h5", "h6", "h7"]

def isHeaderElem (n : Node) : Bool :=
  match n.tagOf with
  | some t => HEADER_TAGS.contains t
  | none => false

/-- The removal condition of removeHeadersWithoutText: negative class weight
or link density above MIN_LINK_DENSITY (0.33). -/
def badHeader (n : Node) : Bool :=
  decide (getClassWeight n < 0) || jsGtRat (getLinkDensity n) (33 / 100 : Rat)

/-- removeTags of the source: split the caller list on commas and newlines
and remove each named tag from the body. -/
def removeTagsOp (s : String) (body : Node) : Node :=
  (splitTagList s).foldl
    (fun b t => removeMatching (fun n => decide (n.tagOf = some t)) b) body

/-- cleanHTML of the source, in its statement order: the caller denylist, the
fixed bad-tag list (plus form when configured), the bad classes, the bad ids,
every comment node, and finally the headers without real text. -/
def cleanHTML (d : Doc) (o : Options) : Doc :=
  let b := d.body
  let b := match o.removeTags with
    | some s => if s ≠ "" then removeTagsOp s b else b
    | none => b
  let tags := BAD_TAG_LIST ++ (if o.removeForm then ["form"] else [])
  let b := removeMatching
    (fun n => match n.tagOf with | some t => tags.contains t | none => false) b
  let b := removeMatching (matchesAny BAD_CLASS_SELS) b
  let b := removeMatching (matchesAny BAD_ID_SELS) b
  let h := removeComments d.head
  let b := removeComments b
  let b := if o.removeHeadersWithoutText then
      removeMatching (fun n => isHeaderElem n && badHeader n) b
    else b
  ⟨h, b⟩

/-! ## Phase A: findArticle -/

def DIV_ARTICLE_SELS : List Sel :=
  [.tagS "article", .clsS "article", .idSel "article", .tagS "section",
   .tagS "table", .clsS "container"]

/-- Number of descendant paragraph elements of a node. -/
def pCount (n : Node) : Nat := (findAll [Sel.tagS "p"] n).length

/-- The selection loop of findArticle: starting from no section and a count
of zero, a match replaces the current selection only when it strictly exceeds
the best count seen so far. -/
def bestSection (acc : Option Node × Nat) : List Node → Option Node × Nat
  | [] => acc
  | s :: r => bestSection (if acc.2 < pCount s then (some s, pCount s) else acc) r

/-- findArticle of the source: fold the loop over all matches of the fixed
container selector list, in document order. -/
def findArticle (body : Node) : Option Node :=
  (bestSection (none, 0) (findAll DIV_ARTICLE_SELS body)).1

/-! ## Phase B: candidate scoring

Score records are attached to tree nodes by reference in the source; here each
element is identified by its child-index path from the body, and the records
live in an association list keyed by path.  The empty path denotes the body
element itself (it can receive a record as the parent of a top-level
paragraph). -/

abbrev Path := List Nat

def Node.sub? : Node → Path → Option Node
  | n, [] => some n
  | .elem _ _ cs, i :: r => match cs[i]? with
    | some c => c.sub? r
    | none => none
  | _, _ :: _ => none

/- Paths of descendant elements with a given tag, in document order. -/
mutual
def tagPaths (t : String) : Node → List Path
  | .elem _ _ cs => tagPathsL t 0 cs
  | _ => []
def tagPathsL (t : String) (i : Nat) : List Node → List Path
  | [] => []
  | c :: cs =>
    ((if decide (c.tagOf = some t) then [[i]] else [])
      ++ (tagPaths t c).map (fun p => i :: p))
      ++ tagPathsL t (i + 1) cs
end

/- Remove the subtrees at the given paths (all of them at once; the source
removes paragraph nodes by reference, which the simultaneous removal by
original path reproduces). -/
mutual
def removePaths (ps : List Path) : Node → Node
  | .elem t a cs => .elem t a (removePathsL ps 0 cs)
  | n => n
def removePathsL (ps : List Path) (i : Nat) : List Node → List Node
  | [] => []
  | c :: cs =>
    (if ps.contains [i] then []
     else [removePaths (ps.filterMap (fun q =>
        match q with
        | [] => none
        | j :: r => if j = i then (if r.isEmpty then none else some r) else none)) c])
      ++ removePathsL ps (i + 1) cs
end

/-- The transient scoring state of one extraction: the empty-text paragraphs
removed so far, the candidate list in push order, and the score records. -/
structure CandSt where
  removedP : List Path
  cands : List Path
  scores : List (Path × Rat)

def lookupScore (l : List (Path × Rat)) (p : Path) : Option Rat :=
  (l.find? (fun e => decide (e.1 = p))).map (fun e => e.2)

def addScore (l : List (Path × Rat)) (p : Path) (q : Rat) : List (Path × Rat) :=
  l.map (fun e => if e.1 = p then (e.1, e.2 + q) else e)

/-- initializeElement of the source: base tag score plus class/id weight. -/
def initElemScore (n : Node) : Rat :=
  ((getContentScore (n.tagOf.getD "") + getClassWeight n : Int) : Rat)

/-- Lazily create a score record for the element at path p, pushing it onto
the candidate list, exactly as the readability-field check of the source. -/
def candInit (body : Node) (st : CandSt) (p : Path) : CandSt :=
  match lookupScore st.scores p with
  | some _ => st
  | none =>
    match body.sub? p with
    | some n =>
      { st with
        scores := st.scores ++ [(p, initElemScore n)]
        cands := st.cands ++ [p] }
    | none => st

/-- One iteration of the paragraph loop of findGoodCandidates: remove the
paragraph when its text is empty, skip scoring when the raw JavaScript
comparison of the text against MIN_CHARS holds, otherwise create records for
the paragraph and its parent and add the per-paragraph increment (the parent
receives half). -/
def candStep (body : Node) (st : CandSt) (p : Path) : CandSt :=
  match body.sub? p with
  | none => st
  | some pn =>
    let t := pn.textOf
    let st1 := if strLen t = 0 then { st with removedP := st.removedP ++ [p] } else st
    if jsLtNum t 25 then st1
    else
      let st2 := candInit body st1 p
      let par := p.dropLast
      let st3 := candInit body st2 par
      let inc : Rat := 1 + (commaSegments t : Nat) + ((min (strLen t / 100) 3 : Nat) : Rat)
      { st3 with scores := addScore (addScore st3.scores p inc) par (inc / 2) }

/-- findGoodCandidates of the source: iterate over every paragraph of the
body in document order; the tree with the empty paragraphs removed is
returned alongside the final state. -/
def findGoodCandidates (body : Node) : Node × CandSt :=
  let st := (tagPaths "p" body).foldl (candStep body) ⟨[], [], []⟩
  (removePaths st.removedP body, st)

/-! ## Phase B: selection (getTopCandidate) -/

/-- The link-density adjustment the selection loop applies to a candidate:
its stored score times one minus its link density.  Densities are read off
the original body; removing empty-text paragraphs changes no text and no
anchor length, so the values agree with the post-removal tree the source
reads. -/
def adjustScore (body : Node) (scores : List (Path × Rat)) (c : Path) : JsNum :=
  let base := (lookupScore scores c).getD 0
  let dens := match body.sub? c with
    | some n => getLinkDensity n
    | none => JsNum.nan
  jsMulRat base (jsOneMinus dens)

/-- The loop body of getTopCandidate: overwrite the stored score with the
adjusted value, then replace the running top when the new stored score
strictly exceeds it (or when there is no top yet). -/
def topLoop (body : Node) (scores : List (Path × Rat))
    (acc : List (Path × JsNum)) (top : Option (Path × JsNum)) :
    List Path → List (Path × JsNum) × Option (Path × JsNum)
  | [] => (acc, top)
  | c :: r =>
    let adj := adjustScore body scores c
    let top2 := match top with
      | none => (c, adj)
      | some pr => if jsGt adj pr.2 then (c, adj) else pr
    topLoop body scores (acc ++ [(c, adj)]) (some top2) r

/-- getTopCandidate of the source: the mutated stored scores after the loop,
and the top candidate (none when the candidate list is empty). -/
def getTopCandidate (body : Node) (st : CandSt) : List (Path × JsNum) × Option Path :=
  let r := topLoop body st.scores [] none st.cands
  (r.1, r.2.map (fun pr => pr.1))

/-- Strip a path prefix; none when the prefix does not apply or nothing
remains. -/
def stripPre : Path → Path → Option Path
  | [], q => if q.isEmpty then none else some q
  | _ :: _, [] => none
  | a :: as, b :: bs => if a = b then stripPre as bs else none

/-- The subtree value the source holds by reference after the scoring pass:
the node at path p of the original body, with the removed empty paragraphs
below it removed. -/
def subtreeAfterRemovals (body : Node) (removed : List Path) (p : Path) : Option Node :=
  (body.sub? p).map (removePaths (removed.filterMap (stripPre p)))

/-- findContentSection of the source: Phase A first; otherwise run the
scoring pass and take the top candidate.  Returns the body (with the empty
paragraphs removed when Phase B ran) and the selected subtree. -/
def findContentSection (body : Node) : Node × Option Node :=
  match findArticle body with
  | some a => (body, some a)
  | none =>
    let r := findGoodCandidates body
    let t := getTopCandidate body r.2
    (r.1, t.2.bind (subtreeAfterRemovals body r.2.removedP))

/-! ## Content post-processing -/

def isImg (n : Node) : Bool := decide (n.tagOf = some "img")

def imgRecord (n : Node) : Option String × Option String := (n.attr "src", n.attr "alt")

/-- findImages of the source: record src and alt of every image found INSIDE
the content selection (contentSection.find), then, when configured, remove all
images document-wide (body.find).  The selection values are kept in step with
the document; every selection the pipeline produces lies inside the body. -/
def findImages (d : Doc) (sel : List Node) (o : Options) :
    List (Option String × Option String) × Doc × List Node :=
  let images := ((sel.map (fun s => (findAll [Sel.tagS "img"] s).map imgRecord))).flatten
  if o.removeImages then
    (images, ⟨d.head, removeMatching isImg d.body⟩, sel.map (removeMatching isImg))
  else
    (images, d, sel)

def isAnchor (n : Node) : Bool := decide (n.tagOf = some "a")

def linkRecord (n : Node) : Option String × String := (n.attr "href", n.textOf)

/- Replace every topmost descendant anchor by a text node carrying its text,
as the replaceWith calls of findLinks do; anchors nested inside a replaced
anchor disappear into that text (the source iterates a precomputed list, so
they are still recorded, but their own replacement acts on a detached node). -/
mutual
def replaceAnchorsIn : Node → Node
  | .elem t a cs => .elem t a (replaceAnchorsL cs)
  | n => n
def replaceAnchorsL : List Node → List Node
  | [] => []
  | c :: cs =>
    (if isAnchor c then Node.text c.textOf else replaceAnchorsIn c) :: replaceAnchorsL cs
end

/-- findLinks of the source: record href and text of every anchor in the
selection, replacing each by its text when configured. -/
def findLinks (sel : List Node) (o : Options) :
    List (Option String × String) × List Node :=
  let links := (sel.map (fun s => (findAll [Sel.tagS "a"] s).map linkRecord)).flatten
  (links, if o.replaceLinks then sel.map replaceAnchorsIn else sel)

/-- findHeaders of the source: every heading of the selection whose text is
truthy and has nonempty trim, recorded with its tag name and raw text. -/
def findHeaders (sel : List Node) : List (String × String) :=
  (sel.map (fun s => (findAll (HEADER_TAGS.map Sel.tagS) s).filterMap
    (fun h =>
      let t := h.textOf
      if t ≠ "" ∧ trimStr t ≠ "" then some (h.tagOf.getD "", t) else none))).flatten

def isH1 (n : Node) : Bool := decide (n.tagOf = some "h1")

def elemChildren (n : Node) : List Node := n.kids.filter (fun c => c.tagOf.isSome)

def BASIC_CONTENT_TAGS : List String := ["p", "h1", "h2", "h3", "h4", "h5", "h6", "h7"]

def hasBasicChild (n : Node) : Bool :=
  (elemChildren n).any (fun c =>
    match c.tagOf with
    | some t => BASIC_CONTENT_TAGS.contains t
    | none => false)

/- The removeEmptyTag pass: remove each div without a direct basic-content
child.  The source visits a precomputed list in document order; the decision
for each div reads only its own children, which no earlier visit in document
order can have changed, so the top-down recursion is equivalent. -/
mutual
def removeEmptyTagDivs : Node → Node
  | .elem t a cs => .elem t a (removeEmptyTagDivsL cs)
  | n => n
def removeEmptyTagDivsL : List Node → List Node
  | [] => []
  | c :: cs =>
    (if decide (c.tagOf = some "div") && !hasBasicChild c then []
     else [removeEmptyTagDivs c]) ++ removeEmptyTagDivsL cs
end

/- The unconditional pass removing each div with no element children (cheerio
children() lists element children only, so a div holding only text goes). -/
mutual
def removeChildlessDivs : Node → Node
  | .elem t a cs => .elem t a (removeChildlessDivsL cs)
  | n => n
def removeChildlessDivsL : List Node → List Node
  | [] => []
  | c :: cs =>
    (if decide (c.tagOf = some "div") && (elemChildren c).isEmpty then []
     else [removeChildlessDivs c]) ++ removeChildlessDivsL cs
end

/- The span pass: remove each span that has no paragraph ancestor.  The
ancestor test of the source walks the whole document; content roots selected
by the pipeline are never inside a paragraph, so only ancestors within the
subtree matter. -/
mutual
def stripSpans (inP : Bool) : Node → Node
  | .elem t a cs => .elem t a (stripSpansL (inP || t = "p") cs)
  | n => n
def stripSpansL (inP : Bool) : List Node → List Node
  | [] => []
  | c :: cs =>
    (if decide (c.tagOf = some "span") && !inP then [] else [stripSpans inP c])
      ++ stripSpansL inP cs
end

/-- Does the subtree contain a descendant thead element (the source tests
find('thead') on the table, which searches all descendants). -/
def hasTheadDesc (n : Node) : Bool := !(findAll [Sel.tagS "thead"] n).isEmpty

/-- Drop the first element child of a child list, keeping everything else. -/
def removeFirstElemChild : List Node → List Node
  | [] => []
  | c :: cs => if c.tagOf.isSome then cs else c :: removeFirstElemChild cs

/-- Apply f to the first element child of a child list. -/
def mapFirstElemChild (f : Node → Node) : List Node → List Node
  | [] => []
  | c :: cs => if c.tagOf.isSome then f c :: cs else c :: mapFirstElemChild f cs

/-- addTableHeader of the source.  Captions are removed first.  When the
first element child is a tbody, its first row's inner content becomes a new
thead prepended to the table and the row is removed (an empty tbody makes the
inner html null, which the template string renders as the text null).
Otherwise the first element child's inner content becomes the thead, the
inner content of the NEXT element child alone becomes the tbody (the cheerio
html() of a multi-element selection serializes only the first element, which
silently drops every later row), the element children are removed and the two
new sections are appended after any remaining text children.  Accessing the
name of the first element child throws a TypeError (none here) when the table
has no element children.  Serialize-then-reparse of well-formed row content is
the identity, so the new sections carry the original child nodes. -/
def addTableHeader (t : Node) : Option Node :=
  let t1 := removeMatching (fun n => decide (n.tagOf = some "caption")) t
  match (elemChildren t1).head? with
  | none => none
  | some fe =>
    if decide (fe.tagOf = some "tbody") then
      let theadKids := match (elemChildren fe).head? with
        | some r => r.kids
        | none => [Node.text "null"]
      some (match t1 with
        | .elem tg a cs =>
          Node.elem tg a (Node.elem "thead" [] theadKids ::
            mapFirstElemChild
              (fun n => match n with
                | .elem tg2 a2 cs2 => Node.elem tg2 a2 (removeFirstElemChild cs2)
                | n2 => n2) cs)
        | n => n)
    else
      let headerKids := fe.kids
      some (match t1 with
        | .elem tg a cs =>
          let cs1 := removeFirstElemChild cs
          let tbodyKids := match (cs1.filter (fun c => c.tagOf.isSome)).head? with
            | some second => second.kids
            | none => [Node.text "null"]
          let keep := cs1.filter (fun c => c.tagOf.isNone)
          Node.elem tg a (keep ++
            [Node.elem "thead" [] headerKids, Node.elem "tbody" [] tbodyKids])
        | n => n)

/- The table pass of cleanContent: fix every descendant table that has no
thead descendant; a fixed table is rebuilt from serialized content, so the
pass does not descend into it (tables nested inside an already fixed table
are not revisited by the source either, their list entries being detached). -/
mutual
def fixTablesIn : Node → Option Node
  | .elem t a cs => (fixTablesL cs).map (fun cs2 => Node.elem t a cs2)
  | n => some n
def fixTablesL : List Node → Option (List Node)
  | [] => some []
  | c :: cs =>
    let c2 := if decide (c.tagOf = some "table") && !hasTheadDesc c
      then addTableHeader c
      else fixTablesIn c
    match c2, fixTablesL cs with
    | some n2, some r2 => some (n2 :: r2)
    | _, _ => none
end

/-- Sequence an option-valued function over a selection, as the each-loop
over the selection does; none propagates the TypeError of addTableHeader. -/
def optMapM (f : Node → Option Node) : List Node → Option (List Node)
  | [] => some []
  | c :: cs =>
    match f c, optMapM f cs with
    | some c2, some r2 => some (c2 :: r2)
    | _, _ => none

def countH1 (sel : List Node) : Nat :=
  ((sel.map (fun s => (findAll [Sel.tagS "h1"] s).length))).foldl (fun a b => a + b) 0

/-- cleanContent of the source, pass by pass: the single h1, the figcaptions,
the optional empty-tag divs, the childless divs, the spans outside
paragraphs, and the tables without headers (the only pass that can throw). -/
def cleanContent (sel : List Node) (o : Options) : Option (List Node) :=
  let sel1 := if o.removeH1FromContent = true ∧ countH1 sel = 1
    then sel.map (removeMatching isH1) else sel
  let sel2 := if o.removeImages = true ∧ o.removeFigcaptions = true
    then sel1.map (removeMatching (fun n => decide (n.tagOf = some "figcaption")))
    else sel1
  let sel3 := if o.removeEmptyTag then sel2.map removeEmptyTagDivs else sel2
  let sel4 := sel3.map removeChildlessDivs
  let sel5 := sel4.map (stripSpans false)
  optMapM fixTablesIn sel5

/-! ## Serialization -/

def serializeAttrs (l : List (String × String)) : String :=
  l.foldl (fun acc p => acc ++ " " ++ p.1 ++ "=\x22" ++ p.2 ++ "\x22") ""

mutual
def serializeNode : Node → String
  | .text s => s
  | .comment s => "<!--" ++ s ++ "-->"
  | .elem t a cs => "<" ++ t ++ serializeAttrs a ++ ">" ++ serializeL cs ++ "</" ++ t ++ ">"
def serializeL : List Node → String
  | [] => ""
  | c :: cs => serializeNode c ++ serializeL cs
end

def serializeInner (n : Node) : String := serializeL n.kids

/-- The html() call on a selection: null (none) on an empty selection,
otherwise the inner markup of the first element. -/
def selHtml (sel : List Node) : Option String := sel.head?.map serializeInner

/-- getCleanText of the source: the concatenated text of every paragraph of
the selection, trimmed. -/
def getCleanText (sel : List Node) : String :=
  trimStr (textOfL ((sel.map (fun s => findAll [Sel.tagS "p"] s)).flatten))

/-! ## The entry point -/

inductive OutType where
  | htmlT
  | txtT
  | mdT

/-- The failures findContent can raise: its own content-not-found error, or
the TypeError escaping addTableHeader. -/
inductive JsError where
  | contentNotFound
  | typeError
deriving DecidableEq

structure ExtractionResult where
  title : String
  description : Option String
  h1 : Option String
  images : List (Option String × Option String)
  links : List (Option String × String)
  headers : List (String × String)
  content : String

/-- A cheerio selection is a JavaScript object and objects are always truthy,
so the body fallback guarded by this test can never be taken. -/
def jqueryTruthy (_sel : List Node) : Bool := true

/-- A caller-supplied htmlSelector, read as one simple selector (the shapes a
caller would pass; composite selectors do not occur in the claims). -/
def parseSimpleSel (s : String) : List Sel :=
  match s.data with
  | '.' :: r => [Sel.clsS (String.mk r)]
  | '#' :: r => [Sel.idSel (String.mk r)]
  | _ => [Sel.tagS s]

/-- The selection step of findContent: the htmlSelector override when it is a
truthy string, otherwise findContentSection wrapped in a cheerio object (null
becomes the empty selection). -/
def selectContent (d : Doc) (o : Options) : Doc × List Node :=
  let phase : Doc × List Node :=
    let r := findContentSection d.body
    (⟨d.head, r.1⟩, match r.2 with | some n => [n] | none => [])
  match o.htmlSelector with
  | some s => if s ≠ "" then (d, docFindAll (parseSimpleSel s) d) else phase
  | none => phase

/-- The identity markdown converter used to instantiate the external
collaborator in concrete theorems. -/
def idString (s : String) : String := s

/-- The tail of findContent, from the cleanContent call to the return (lines
108 to 116 of the source), split out so the error behaviour can be stated on
its own: clean the content, fail with the content-not-found error when the
selection serializes to null, otherwise assemble the result in the requested
output type. -/
def renderContent (mdConv : String → String) (ty : OutType) (title : String)
    (description : Option String) (h1 : Option String)
    (images : List (Option String × Option String))
    (links : List (Option String × String)) (headers : List (String × String))
    (sel : List Node) (o : Options) : Except JsError ExtractionResult :=
  match cleanContent sel o with
  | none => .error .typeError
  | some sel4 =>
    match selHtml sel4 with
    | none => .error .contentNotFound
    | some htmlStr =>
      .ok
        { title := title
          description := description
          h1 := h1
          images := images
          links := links
          headers := headers
          content := match ty with
            | .mdT => mdConv htmlStr
            | .txtT => getCleanText sel4
            | .htmlT => htmlStr }

/-- findContent of the source, line by line: merge the options (defaults
last), read the metadata, clean the document, select the content, extract
images, links and headers, then clean and render the content. -/
def findContent (mdConv : String → String) (d : Doc) (ty : OutType)
    (o : UserOptions) : Except JsError ExtractionResult :=
  let options := mergeOptions o
  let title := getTitle d
  let description := getDescription d
  let h1 := getH1 d options.useFirstH1
  let d1 := cleanHTML d options
  let pc := selectContent d1 options
  let sel1 := if jqueryTruthy pc.2 then pc.2 else [pc.1.body]
  let fi := findImages pc.1 sel1 options
  let fl := findLinks fi.2.2 options
  let headers := findHeaders fl.2
  renderContent mdConv ty title description h1 fi.1 fl.1 headers fl.2 options

/-! ## General lemmas about the embedded operations -/

/-- A string of length zero coerces to the number 0, which is below the
minimum-character threshold. -/
theorem jsLtNum_of_len_zero {t : String} (h : strLen t = 0) : jsLtNum t 25 = true := by
  obtain ⟨d⟩ := t
  have hd : d = [] := List.length_eq_zero.mp h
  subst hd
  rfl

/-- A string that coerces to NaN fails every threshold comparison. -/
theorem jsLtNum_of_nan {t : String} (h : jsStrToNum t = JsStrNum.nan) :
    jsLtNum t 25 = false := by
  simp [jsLtNum, h, jsStrNumLt]

/-- The selection loop of findArticle: every processed count is bounded by
the final count, the accumulator count never decreases, and the result is
either the untouched accumulator or the first processed element beating
everything before it and bounding everything after it. -/
theorem bestSection_sound (ms : List Node) :
    ∀ acc : Option Node × Nat,
      (∀ m ∈ ms, pCount m ≤ (bestSection acc ms).2) ∧
      acc.2 ≤ (bestSection acc ms).2 ∧
      (bestSection acc ms = acc ∨
        ∃ a l1 l2, ms = l1 ++ a :: l2 ∧ bestSection acc ms = (some a, pCount a) ∧
          (∀ m ∈ l1, pCount m < pCount a) ∧ acc.2 < pCount a) := by
  induction ms with
  | nil =>
    intro acc
    exact ⟨by simp, le_refl _, Or.inl rfl⟩
  | cons s r ih =>
    intro acc
    by_cases h : acc.2 < pCount s
    · have he : bestSection acc (s :: r) = bestSection (some s, pCount s) r := by
        simp [bestSection, h]
      obtain ⟨ih1, ih2, ih3⟩ := ih (some s, pCount s)
      refine ⟨?_, ?_, ?_⟩
      · intro m hm
        rw [he]
        rcases List.mem_cons.mp hm with rfl | hm2
        · exact le_trans ih2 (le_refl _)
        · exact ih1 m hm2
      · rw [he]; exact le_trans (le_of_lt h) ih2
      · rcases ih3 with he2 | ⟨a, l1, l2, hsplit, hres, hl1, hpos⟩
        · refine Or.inr ⟨s, [], r, rfl, by rw [he, he2], ?_, h⟩
          intro m hm
          exact absurd hm (List.not_mem_nil m)
        · refine Or.inr ⟨a, s :: l1, l2, by rw [hsplit, List.cons_append], by rw [he, hres], ?_, lt_trans h hpos⟩
          intro m hm
          rcases List.mem_cons.mp hm with rfl | hm2
          · exact hpos
          · exact hl1 m hm2
    · have he : bestSection acc (s :: r) = bestSection acc r := by
        simp [bestSection, h]
      obtain ⟨ih1, ih2, ih3⟩ := ih acc
      refine ⟨?_, ?_, ?_⟩
      · intro m hm
        rw [he]
        rcases List.mem_cons.mp hm with rfl | hm2
        · exact le_trans (Nat.not_lt.mp h) ih2
        · exact ih1 m hm2
      · rw [he]; exact ih2
      · rcases ih3 with he2 | ⟨a, l1, l2, hsplit, hres, hl1, hpos⟩
        · exact Or.inl (by rw [he, he2])
        · refine Or.inr ⟨a, s :: l1, l2, by rw [hsplit, List.cons_append], by rw [he, hres], ?_, hpos⟩
          intro m hm
          rcases List.mem_cons.mp hm with rfl | hm2
          · exact lt_of_le_of_lt (Nat.not_lt.mp h) hpos
          · exact hl1 m hm2

/-- The JavaScript strict order never holds reflexively (NaN compares false,
Infinity does not exceed itself). -/
theorem jsGt_irrefl (a : JsNum) : jsGt a a = false := by
  cases a <;> simp [jsGt]

/-- Asymmetry of the JavaScript strict order. -/
theorem jsGt_asymm {a b : JsNum} (h : jsGt a b = true) : jsGt b a = false := by
  cases a <;> cases b <;> simp_all [jsGt]
  linarith

/-- If x does not beat t and y does, then x does not beat y; this is the
preservation step for the running maximum of the selection loop (it holds
even though NaN makes the order non-total). -/
theorem jsGt_chain {x y t : JsNum} (hx : jsGt x t = false) (hy : jsGt y t = true) :
    jsGt x y = false := by
  cases x <;> cases y <;> cases t <;> simp_all [jsGt]
  linarith

/-- The accumulated list of the selection loop: every candidate contributes
exactly one entry holding its adjusted score, computed from the scores as
they stood before the loop started. -/
theorem topLoop_acc (body : Node) (scores : List (Path × Rat)) :
    ∀ (cs : List Path) (acc : List (Path × JsNum)) (top : Option (Path × JsNum)),
      (topLoop body scores acc top cs).1
        = acc ++ cs.map (fun c => (c, adjustScore body scores c)) := by
  intro cs
  induction cs with
  | nil => intro acc top; simp [topLoop]
  | cons c r ih =>
    intro acc top
    simp only [topLoop]
    rw [ih]
    simp

/-- Once the running top is set it never becomes unset. -/
theorem topLoop_top_some (body : Node) (scores : List (Path × Rat)) :
    ∀ (cs : List Path) (acc : List (Path × JsNum)) (pr : Path × JsNum),
      ∃ t, (topLoop body scores acc (some pr) cs).2 = some t := by
  intro cs
  induction cs with
  | nil => intro acc pr; exact ⟨pr, rfl⟩
  | cons c r ih =>
    intro acc pr
    simp only [topLoop]
    exact ih _ _

/-- Anything that fails to beat the current top also fails to beat the final
top of the selection loop. -/
theorem topLoop_mono (body : Node) (scores : List (Path × Rat)) :
    ∀ (cs : List Path) (acc : List (Path × JsNum)) (pr t : Path × JsNum),
      (topLoop body scores acc (some pr) cs).2 = some t →
      ∀ x, jsGt x pr.2 = false → jsGt x t.2 = false := by
  intro cs
  induction cs with
  | nil =>
    intro acc pr t ht x hx
    simp only [topLoop] at ht
    cases ht
    exact hx
  | cons c r ih =>
    intro acc pr t ht x hx
    simp only [topLoop] at ht
    by_cases hj : jsGt (adjustScore body scores c) pr.2 = true
    · rw [if_pos hj] at ht
      exact ih _ _ t ht x (jsGt_chain hx hj)
    · rw [if_neg hj] at ht
      exact ih _ _ t ht x hx

/-- The final top of the selection loop is the entry it started from or one
of the processed candidates, paired with its adjusted score. -/
theorem topLoop_mem (body : Node) (scores : List (Path × Rat)) :
    ∀ (cs : List Path) (acc : List (Path × JsNum)) (pr t : Path × JsNum),
      (topLoop body scores acc (some pr) cs).2 = some t →
      t = pr ∨ (t.1 ∈ cs ∧ t.2 = adjustScore body scores t.1) := by
  intro cs
  induction cs with
  | nil =>
    intro acc pr t ht
    simp only [topLoop] at ht
    cases ht
    exact Or.inl rfl
  | cons c r ih =>
    intro acc pr t ht
    simp only [topLoop] at ht
    by_cases hj : jsGt (adjustScore body scores c) pr.2 = true
    · rw [if_pos hj] at ht
      rcases ih _ _ t ht with rfl | ⟨hmem, hval⟩
      · exact Or.inr ⟨List.mem_cons_self _ _, rfl⟩
      · exact Or.inr ⟨List.mem_cons_of_mem _ hmem, hval⟩
    · rw [if_neg hj] at ht
      rcases ih _ _ t ht with rfl | ⟨hmem, hval⟩
      · exact Or.inl rfl
      · exact Or.inr ⟨List.mem_cons_of_mem _ hmem, hval⟩

/-- No processed candidate, and not the starting entry either, strictly beats
the final top of the selection loop. -/
theorem topLoop_max (body : Node) (scores : List (Path × Rat)) :
    ∀ (cs : List Path) (acc : List (Path × JsNum)) (pr t : Path × JsNum),
      (topLoop body scores acc (some pr) cs).2 = some t →
      jsGt pr.2 t.2 = false ∧
        ∀ c ∈ cs, jsGt (adjustScore body scores c) t.2 = false := by
  intro cs
  induction cs with
  | nil =>
    intro acc pr t ht
    simp only [topLoop] at ht
    cases ht
    exact ⟨jsGt_irrefl _, by simp⟩
  | cons c r ih =>
    intro acc pr t ht
    simp only [topLoop] at ht
    by_cases hj : jsGt (adjustScore body scores c) pr.2 = true
    · rw [if_pos hj] at ht
      obtain ⟨h1, h2⟩ := ih _ _ t ht
      refine ⟨topLoop_mono body scores r _ _ t ht pr.2 (jsGt_asymm hj), ?_⟩
      intro m hm
      rcases List.mem_cons.mp hm with rfl | hm2
      · exact h1
      · exact h2 m hm2
    · rw [if_neg hj] at ht
      obtain ⟨h1, h2⟩ := ih _ _ t ht
      refine ⟨h1, ?_⟩
      intro m hm
      rcases List.mem_cons.mp hm with rfl | hm2
      · exact topLoop_mono body scores r _ _ t ht _ (by simpa using hj)
      · exact h2 m hm2

/-- Updating a score in place neither creates nor destroys records. -/
theorem lookupScore_addScore_isSome (l : List (Path × Rat)) (p q r) :
    (lookupScore (addScore l p q) r).isSome = (lookupScore l r).isSome := by
  induction l with
  | nil => rfl
  | cons e l ih =>
    by_cases h : e.1 = p
    · by_cases h2 : e.1 = r <;>
        simp_all [addScore, lookupScore, List.find?]
    · by_cases h2 : e.1 = r <;>
        simp_all [addScore, lookupScore, List.find?]

/-- A record once present survives appending further records. -/
theorem lookupScore_append_isSome (l l2 : List (Path × Rat)) (r : Path)
    (h : (lookupScore l r).isSome = true) :
    (lookupScore (l ++ l2) r).isSome = true := by
  induction l with
  | nil => simp [lookupScore, List.find?] at h
  | cons e l ih =>
    by_cases h2 : e.1 = r <;>
      simp_all [lookupScore, List.find?, List.cons_append]

/-- Looking up the key just appended succeeds. -/
theorem lookupScore_append_self (l : List (Path × Rat)) (p : Path) (q : Rat) :
    (lookupScore (l ++ [(p, q)]) p).isSome = true := by
  induction l with
  | nil => simp [lookupScore, List.find?]
  | cons e l ih =>
    by_cases h2 : e.1 = p <;>
      simp_all [lookupScore, List.find?, List.cons_append]

/-- candInit leaves the removed-paragraph list untouched. -/
theorem candInit_removedP (body : Node) (st : CandSt) (p : Path) :
    (candInit body st p).removedP = st.removedP := by
  unfold candInit
  split
  · rfl
  · split <;> rfl

/-- After candInit for path p, a record for p exists whenever the path
denotes a node of the body. -/
theorem candInit_self_isSome (body : Node) (st : CandSt) (p : Path) (pn : Node)
    (h : body.sub? p = some pn) :
    (lookupScore (candInit body st p).scores p).isSome = true := by
  unfold candInit
  cases hl : lookupScore st.scores p with
  | some q => simp [hl]
  | none =>
    rw [h]
    exact lookupScore_append_self st.scores p (initElemScore pn)

/-- candInit preserves every existing record. -/
theorem candInit_preserves (body : Node) (st : CandSt) (q r : Path)
    (h : (lookupScore st.scores r).isSome = true) :
    (lookupScore (candInit body st q).scores r).isSome = true := by
  unfold candInit
  cases hl : lookupScore st.scores q with
  | some x => exact h
  | none =>
    cases hs : body.sub? q with
    | none => exact h
    | some n => exact lookupScore_append_isSome st.scores _ r h

/-- The collecting loop of getFirstH1 is the filter on nonempty texts. -/
theorem collectNonEmpty_eq_filter (l : List String) :
    collectNonEmpty l = l.filter (fun t => decide (t ≠ "")) := by
  induction l with
  | nil => rfl
  | cons t r ih =>
    by_cases h : t = "" <;> simp_all [collectNonEmpty, List.filter_cons]

/-- Sequencing the table fix over a selection preserves the shape of the
selection: a success has the same length, hence is empty exactly when the
selection was. -/
theorem optMapM_some_nil_iff (f : Node → Option Node) (l r : List Node)
    (h : optMapM f l = some r) : r = [] ↔ l = [] := by
  cases l with
  | nil =>
    simp only [optMapM, Option.some.injEq] at h
    subst h
    simp
  | cons c cs =>
    simp only [optMapM] at h
    cases hfc : f c with
    | none => rw [hfc] at h; cases h
    | some c2 =>
      cases hrec : optMapM f cs with
      | none => rw [hfc, hrec] at h; cases h
      | some r2 =>
        rw [hfc, hrec] at h
        cases h
        simp

/-- The selection threaded through findImages is empty exactly when the input
selection was. -/
theorem findImages_sel_nil_iff (d : Doc) (sel : List Node) (o : Options) :
    ((findImages d sel o).2.2 = []) ↔ sel = [] := by
  by_cases h : o.removeImages <;> simp [findImages, h]

/-- The selection threaded through findLinks is empty exactly when the input
selection was. -/
theorem findLinks_sel_nil_iff (sel : List Node) (o : Options) :
    ((findLinks sel o).2 = []) ↔ sel = [] := by
  by_cases h : o.replaceLinks <;> simp [findLinks, h]

/-- A successful cleanContent returns an empty selection exactly when it was
given one. -/
theorem cleanContent_some_nil_iff (sel : List Node) (o : Options) (r : List Node)
    (h : cleanContent sel o = some r) : r = [] ↔ sel = [] := by
  unfold cleanContent at h
  split_ifs at h <;>
    simp [optMapM_some_nil_iff _ _ _ h]

/-- The html() of a selection is null exactly on the empty selection. -/
theorem selHtml_none_iff (sel : List Node) : selHtml sel = none ↔ sel = [] := by
  cases sel <;> simp [selHtml]

/- No descendant of the result of removeMatching satisfies the predicate,
provided the predicate reads only the tag and the attributes (it may not
inspect the children, which removal rewrites). -/
mutual
theorem removeMatching_clean (p : Node → Bool)
    (hp : ∀ t a cs cs2, p (.elem t a cs) = p (.elem t a cs2)) :
    ∀ (n : Node), ∀ m ∈ (removeMatching p n).desc, p m = false
  | .elem t a cs => by
    intro m hm
    simp only [removeMatching, Node.desc] at hm
    exact removeMatchingL_clean p hp cs m hm
  | .text s => by intro m hm; simp [removeMatching, Node.desc] at hm
  | .comment s => by intro m hm; simp [removeMatching, Node.desc] at hm
theorem removeMatchingL_clean (p : Node → Bool)
    (hp : ∀ t a cs cs2, p (.elem t a cs) = p (.elem t a cs2)) :
    ∀ (l : List Node), ∀ m ∈ descL (removeMatchingL p l), p m = false
  | [] => by intro m hm; simp [removeMatchingL, descL] at hm
  | c :: cs => by
    intro m hm
    simp only [removeMatchingL] at hm
    by_cases hc : p c = true
    · rw [if_pos hc] at hm
      simp only [List.nil_append] at hm
      exact removeMatchingL_clean p hp cs m hm
    · rw [if_neg hc] at hm
      simp only [List.singleton_append, descL] at hm
      rcases List.mem_append.mp hm with hm1 | hm3
      · rcases List.mem_append.mp hm1 with hm1 | hm2
        · cases c with
          | elem t a cs0 =>
            simp only [removeMatching, List.mem_singleton] at hm1
            subst hm1
            rw [hp t a (removeMatchingL p cs0) cs0]
            exact Bool.not_eq_true _ ▸ (by simpa using hc)
          | text s => simp [removeMatching] at hm1
          | comment s => simp [removeMatching] at hm1
        · exact removeMatching_clean p hp c m hm2
      · exact removeMatchingL_clean p hp cs m hm3
end

/-- Removing images leaves a tree in which the image selector matches
nothing. -/
theorem findAll_img_removeMatching (n : Node) :
    findAll [Sel.tagS "img"] (removeMatching isImg n) = [] := by
  unfold findAll
  rw [List.filter_eq_nil_iff]
  intro m hm
  have hclean := removeMatching_clean isImg (fun t a cs cs2 => rfl) n m hm
  simp only [matchesAny, List.any_cons, List.any_nil, Bool.or_false]
  simpa [isImg, selMatch] using hclean

/-! ## Concrete documents used by the claim theorems -/

def head0 : Node := .elem "head" [] []

def uoC1 : UserOptions := { removeForm := some true, removeImages := some false }

def docC1 : Doc :=
  ⟨head0,
    .elem "body" []
      [.elem "article" []
        [.elem "p" [] [.text "enough text to make a real paragraph"],
         .elem "form" [] [],
         .elem "img" [("src", "x.png")] []]]⟩

def docC2 : Doc := ⟨head0, .elem "body" [] [.text "hello"]⟩

def bodyC3 : Node := .elem "body" [] [.elem "section" [] [.text "no paragraphs here"]]

def artC3w : Node := .elem "article" [] [.elem "p" [] [.text "some words"]]

def bodyC3w : Node := .elem "body" [] [artC3w]

def pC4 : Node := .elem "p" [] [.text "short words"]

def bodyC4 : Node := .elem "body" [] [.elem "div" [] [pC4]]

def emptyCandSt : CandSt := ⟨[], [], []⟩

/-! ## Claim C1 -/

/-- C1: the claim states that caller-supplied recognized options take effect
(removeForm true removes every form, removeImages false keeps images).  The
source merges the options as the spread of o followed by defaultOptions, so
the defaults win for every key they define: removeForm stays false and
removeImages stays true whatever the caller passes, the form survives into
the extracted content and the images are still stripped.  This theorem
evaluates the code at such a call, exhibiting the divergence. -/
theorem C1_caller_options_overridden :
    (mergeOptions uoC1).removeForm = false ∧
    (mergeOptions uoC1).removeImages = true ∧
    (findContent idString docC1 OutType.htmlT uoC1).map
      (fun r => hasSub ("<form".data) r.content.data) = Except.ok true ∧
    (findContent idString docC1 OutType.htmlT uoC1).map
      (fun r => hasSub ("<img".data) r.content.data) = Except.ok false :=
  ⟨rfl, rfl, rfl, rfl⟩

/-! ## Claim C2 -/

/-- C2: the claim states that when the override is absent and both phases
fail, findContent uses the document body itself as the content subtree.  In
the source the selection wrapping the null phase result is an empty cheerio
object, which is truthy, so the body fallback on line 100 is dead code and
findContent instead throws the content-not-found error.  Evaluated on a body
holding only text (no containers, no paragraphs): both phases fail, the body
serializes to markup, and the call errors rather than returning it. -/
theorem C2_body_fallback_unreachable :
    findContent idString docC2 OutType.htmlT {} = Except.error JsError.contentNotFound ∧
    serializeInner docC2.body = "hello" :=
  ⟨rfl, rfl⟩

/-! ## Claim C3 -/

/-- C3 counterexample: a body with one section element (a structural match)
containing no paragraph.  The claim says Phase A selects a match and Phase B
runs only when no element matches; the source requires a strictly positive
paragraph count, so Phase A yields nothing here and Phase B runs although a
match exists. -/
theorem C3_counterexample :
    (findAll DIV_ARTICLE_SELS bodyC3).length = 1 ∧
    findArticle bodyC3 = none ∧
    (findContentSection bodyC3).2 = none :=
  ⟨rfl, rfl, rfl⟩

/-- C3 amended: among the structural matches, Phase A selects the first
element attaining the maximal count of descendant paragraphs, provided that
count is at least one; when no match exists or every match has zero
paragraphs, Phase A yields nothing (and the scoring fallback runs). -/
theorem C3_amended (body : Node) :
    (findArticle body = none →
      ∀ m ∈ findAll DIV_ARTICLE_SELS body, pCount m = 0) ∧
    (∀ a, findArticle body = some a →
      0 < pCount a ∧
      (∀ m ∈ findAll DIV_ARTICLE_SELS body, pCount m ≤ pCount a) ∧
      ∃ l1 l2, findAll DIV_ARTICLE_SELS body = l1 ++ a :: l2 ∧
        ∀ m ∈ l1, pCount m < pCount a) := by
  have hdef : findArticle body
      = (bestSection (none, 0) (findAll DIV_ARTICLE_SELS body)).1 := rfl
  obtain ⟨h1, h2, h3⟩ := bestSection_sound (findAll DIV_ARTICLE_SELS body) (none, 0)
  rcases h3 with he | ⟨a, l1, l2, hsplit, hres, hl1, hpos⟩
  · constructor
    · intro _ m hm
      have hb := h1 m hm
      rw [he] at hb
      exact Nat.le_zero.mp hb
    · intro a2 ha2
      rw [hdef, he] at ha2
      simp at ha2
  · constructor
    · intro hnone
      rw [hdef, hres] at hnone
      simp at hnone
    · intro a2 ha2
      rw [hdef, hres] at ha2
      have haa : a = a2 := by simpa using ha2
      subst haa
      refine ⟨by simpa using hpos, ?_, l1, l2, hsplit, hl1⟩
      intro m hm
      have hb := h1 m hm
      rw [hres] at hb
      exact hb

/-- C3 witness: instantiating the amended theorem on a body whose single
article contains one paragraph. -/
theorem C3_amended_witness :
    0 < pCount artC3w ∧
    (∀ m ∈ findAll DIV_ARTICLE_SELS bodyC3w, pCount m ≤ pCount artC3w) ∧
    ∃ l1 l2, findAll DIV_ARTICLE_SELS bodyC3w = l1 ++ artC3w :: l2 ∧
      ∀ m ∈ l1, pCount m < pCount artC3w :=
  (C3_amended bodyC3w).2 artC3w rfl

/-! ## Claim C4 -/

/-- C4 counterexample: a paragraph whose nonempty text has length 11, below
the 25-character threshold.  The claim says scoring is skipped for it; in the
source the comparison coerces the text to NaN, every NaN comparison is false,
and the paragraph IS scored: a record is created for it (and its parent) and
both enter the candidate list. -/
theorem C4_counterexample :
    strLen (Node.textOf pC4) < 25 ∧
    Node.textOf pC4 ≠ "" ∧
    (lookupScore (findGoodCandidates bodyC4).2.scores [0, 0]).isSome = true ∧
    (findGoodCandidates bodyC4).2.cands = [[0, 0], [0]] ∧
    Node.sub? bodyC4 [0, 0] = some pC4 :=
  ⟨by decide, by decide, rfl, rfl, rfl⟩

/-- C4 amended: in the paragraph loop, scoring is skipped exactly when the
JavaScript coercion of the paragraph text to a number is below 25 (the empty
string coerces to 0, so empty paragraphs are removed and skipped; a numeric
string below 25 is skipped but kept); any text that coerces to NaN — in
particular every nonempty non-numeric text regardless of length — is scored,
and only empty-text paragraphs are removed from the tree. -/
theorem C4_amended (body : Node) (st : CandSt) (p : Path) (pn : Node)
    (h : body.sub? p = some pn) :
    (jsLtNum pn.textOf 25 = true →
      (candStep body st p).scores = st.scores ∧
      (candStep body st p).cands = st.cands) ∧
    (strLen pn.textOf = 0 →
      jsLtNum pn.textOf 25 = true ∧
      (candStep body st p).removedP = st.removedP ++ [p]) ∧
    (strLen pn.textOf ≠ 0 → (candStep body st p).removedP = st.removedP) ∧
    (jsStrToNum pn.textOf = JsStrNum.nan →
      (lookupScore (candStep body st p).scores p).isSome = true) := by
  refine ⟨?_, ?_, ?_, ?_⟩
  · intro hlt
    simp only [candStep, h, hlt, if_true]
    by_cases hz : strLen pn.textOf = 0 <;> simp [hz]
  · intro hz
    have hlt := jsLtNum_of_len_zero hz
    refine ⟨hlt, ?_⟩
    simp only [candStep, h, hlt, if_true, hz, if_pos]
  · intro hnz
    simp only [candStep, h, hnz, if_neg, if_false]
    by_cases hlt : jsLtNum pn.textOf 25 = true
    · simp [hlt]
    · simp only [Bool.not_eq_true] at hlt
      simp [hlt, candInit_removedP]
  · intro hnan
    have hlt := jsLtNum_of_nan hnan
    simp only [candStep, h, hlt, Bool.false_eq_true, if_false]
    rw [lookupScore_addScore_isSome, lookupScore_addScore_isSome]
    exact candInit_preserves body _ _ p
      (candInit_self_isSome body _ p pn h)

/-- C4 witness: instantiating the amended characterization on the concrete
short paragraph, whose text coerces to NaN. -/
theorem C4_amended_witness :
    (jsLtNum pC4.textOf 25 = true →
      (candStep bodyC4 emptyCandSt [0, 0]).scores = emptyCandSt.scores ∧
      (candStep bodyC4 emptyCandSt [0, 0]).cands = emptyCandSt.cands) ∧
    (strLen pC4.textOf = 0 →
      jsLtNum pC4.textOf 25 = true ∧
      (candStep bodyC4 emptyCandSt [0, 0]).removedP = emptyCandSt.removedP ++ [[0, 0]]) ∧
    (strLen pC4.textOf ≠ 0 →
      (candStep bodyC4 emptyCandSt [0, 0]).removedP = emptyCandSt.removedP) ∧
    (jsStrToNum pC4.textOf = JsStrNum.nan →
      (lookupScore (candStep bodyC4 emptyCandSt [0, 0]).scores [0, 0]).isSome = true) :=
  C4_amended bodyC4 emptyCandSt [0, 0] pC4 rfl

def pNum : Node := .elem "p" [] [.text "12.5"]

def bodyNum : Node := .elem "body" [] [.elem "div" [] [pNum]]

/-- The skip branch at a representable numeric text: 12.5 coerces to a
number below 25, so the paragraph loop skips scoring for the paragraph - no
record is created and no candidate pushed - while the paragraph stays in the
tree. -/
theorem candStep_skips_numeric_text :
    jsLtNum (Node.textOf pNum) 25 = true ∧
    (findGoodCandidates bodyNum).2.cands = [] ∧
    (findGoodCandidates bodyNum).2.scores = [] ∧
    (findAll [Sel.tagS "p"] (findGoodCandidates bodyNum).1).length = 1 :=
  ⟨rfl, rfl, rfl, rfl⟩

/-! ## Claim C5 -/

def divC5 : Node := .elem "div" [] [.elem "a" [] [.text "ab"], .text "ab"]

def bodyC5 : Node := .elem "body" [] [divC5]

def stC5 : CandSt := ⟨[], [[0]], [([0], 10)]⟩

/-- C5 counterexample: the claim states that the stored contentScore values
are never mutated by the selection step.  The source writes the adjusted
value back into the record: for a candidate with stored score 10 and link
density one half, the stored score after selection is 5, not 10. -/
theorem C5_counterexample :
    stC5.scores = [([0], (10 : Rat))] ∧
    (getTopCandidate bodyC5 stC5).1 = [([0], JsNum.val 5)] ∧
    (getTopCandidate bodyC5 stC5).1
      ≠ stC5.cands.map (fun c => (c, JsNum.val ((lookupScore stC5.scores c).getD 0))) := by
  have hs : Node.sub? bodyC5 [0] = some divC5 := rfl
  have h1 : collapsedTextLen divC5 = 4 := rfl
  have h2 : linkTextLen divC5 = 2 := rfl
  have hb : (lookupScore stC5.scores [0]).getD 0 = 10 := rfl
  have hd : adjustScore bodyC5 stC5.scores [0] = JsNum.val 5 := by
    simp only [adjustScore, hs, hb, getLinkDensity, h1, h2, jsOneMinus, jsMulRat]
    norm_num
  have hc : stC5.cands = [[0]] := rfl
  have he : (getTopCandidate bodyC5 stC5).1 = [([0], JsNum.val 5)] := by
    show (topLoop bodyC5 stC5.scores [] none stC5.cands).1 = [([0], JsNum.val 5)]
    rw [hc]
    simp only [topLoop, hd, List.nil_append]
  refine ⟨rfl, he, ?_⟩
  intro h
  rw [he] at h
  have hr : stC5.cands.map (fun c => (c, JsNum.val ((lookupScore stC5.scores c).getD 0)))
      = [([0], JsNum.val 10)] := rfl
  rw [hr] at h
  norm_num at h

/-- C5 amended: the selection step overwrites each stored score exactly once,
with the adjustment computed from the scores as they stood when accumulation
finished (so adjustments never compound), and the returned top candidate is
an element of the candidate list that no candidate's adjusted score strictly
beats under the JavaScript comparison. -/
theorem C5_amended (body : Node) (st : CandSt) :
    (getTopCandidate body st).1
      = st.cands.map (fun c => (c, adjustScore body st.scores c)) ∧
    ((getTopCandidate body st).2 = none ↔ st.cands = []) ∧
    (∀ t0, (getTopCandidate body st).2 = some t0 →
      t0 ∈ st.cands ∧
      ∀ c ∈ st.cands,
        jsGt (adjustScore body st.scores c) (adjustScore body st.scores t0) = false) := by
  refine ⟨?_, ?_, ?_⟩
  · show (topLoop body st.scores [] none st.cands).1 = _
    rw [topLoop_acc]
    simp
  · cases hc : st.cands with
    | nil =>
      have h2 : (getTopCandidate body st).2
          = (topLoop body st.scores [] none st.cands).2.map (fun pr => pr.1) := rfl
      rw [hc] at h2
      simp only [topLoop, Option.map_none'] at h2
      simp [h2]
    | cons c r =>
      have h2 : (getTopCandidate body st).2
          = (topLoop body st.scores [] none st.cands).2.map (fun pr => pr.1) := rfl
      rw [hc] at h2
      have h3 : (getTopCandidate body st).2
          = ((topLoop body st.scores [(c, adjustScore body st.scores c)]
              (some (c, adjustScore body st.scores c)) r).2).map (fun pr => pr.1) := h2
      obtain ⟨t, ht⟩ := topLoop_top_some body st.scores r
        [(c, adjustScore body st.scores c)] (c, adjustScore body st.scores c)
      rw [ht, Option.map_some'] at h3
      constructor
      · intro hn
        rw [h3] at hn
        simp at hn
      · intro h
        exact absurd h (List.cons_ne_nil c r)
  · intro t0 ht0
    cases hc : st.cands with
    | nil =>
      have h2 : (getTopCandidate body st).2
          = (topLoop body st.scores [] none st.cands).2.map (fun pr => pr.1) := rfl
      rw [hc] at h2
      simp only [topLoop, Option.map_none'] at h2
      rw [h2] at ht0
      simp at ht0
    | cons c r =>
      have h2 : (getTopCandidate body st).2
          = (topLoop body st.scores [] none st.cands).2.map (fun pr => pr.1) := rfl
      rw [hc] at h2
      have h3 : (getTopCandidate body st).2
          = ((topLoop body st.scores [(c, adjustScore body st.scores c)]
              (some (c, adjustScore body st.scores c)) r).2).map (fun pr => pr.1) := h2
      obtain ⟨t, ht⟩ := topLoop_top_some body st.scores r
        [(c, adjustScore body st.scores c)] (c, adjustScore body st.scores c)
      rw [ht, Option.map_some'] at h3
      rw [h3] at ht0
      have htt : t.1 = t0 := by simpa using ht0
      have hmem := topLoop_mem body st.scores r _ _ _ ht
      have hmax := topLoop_max body st.scores r _ _ _ ht
      have hval : t.2 = adjustScore body st.scores t.1 := by
        rcases hmem with rfl | ⟨_, hv⟩
        · rfl
        · exact hv
      have hmem2 : t.1 ∈ c :: r := by
        rcases hmem with rfl | ⟨hm, _⟩
        · exact List.mem_cons_self _ _
        · exact List.mem_cons_of_mem _ hm
      subst htt
      constructor
      · exact hmem2
      · intro m hm
        rcases List.mem_cons.mp hm with rfl | hm2
        · have hx := hmax.1
          rw [hval] at hx
          exact hx
        · have hx := hmax.2 m hm2
          rw [hval] at hx
          exact hx

def bodyC5w : Node := .elem "body" [] [.elem "div" [] []]

def stC5w : CandSt := ⟨[], [[0]], [([0], 2)]⟩

/-- C5 witness: instantiating the amended theorem on a one-candidate state. -/
theorem C5_amended_witness :
    (getTopCandidate bodyC5w stC5w).1
      = stC5w.cands.map (fun c => (c, adjustScore bodyC5w stC5w.scores c)) ∧
    ((getTopCandidate bodyC5w stC5w).2 = none ↔ stC5w.cands = []) ∧
    (∀ t0, (getTopCandidate bodyC5w stC5w).2 = some t0 →
      t0 ∈ stC5w.cands ∧
      ∀ c ∈ stC5w.cands,
        jsGt (adjustScore bodyC5w stC5w.scores c)
          (adjustScore bodyC5w stC5w.scores t0) = false) :=
  C5_amended bodyC5w stC5w

/-! ## Claim C6 -/

def rowA : Node := .elem "tr" [] [.elem "td" [] [.text "A"]]

def rowB : Node := .elem "tr" [] [.elem "td" [] [.text "B"]]

def rowC : Node := .elem "tr" [] [.elem "td" [] [.text "C"]]

def tblC6 : Node := .elem "table" [] [rowA, rowB, rowC]

def tblC6fixed : Node :=
  .elem "table" []
    [.elem "thead" [] [.elem "td" [] [.text "A"]],
     .elem "tbody" [] [.elem "td" [] [.text "B"]]]

/-- C6: the claim states table repair preserves all original rows' cell
content.  On a three-row table without tbody, the source serializes only the
FIRST remaining row (the html() of a multi-element selection) into the new
tbody, so the third row's content C is silently dropped; the repaired table
does have exactly one thead and one tbody, but its text is AB where the
original was ABC.  The repair is also applied this way by the table pass of
cleanContent. -/
theorem C6_table_rows_dropped :
    addTableHeader tblC6 = some tblC6fixed ∧
    (findAll [Sel.tagS "thead"] tblC6fixed).length = 1 ∧
    (findAll [Sel.tagS "tbody"] tblC6fixed).length = 1 ∧
    (findAll [Sel.tagS "tr"] tblC6).length = 3 ∧
    Node.textOf tblC6 = "ABC" ∧
    Node.textOf tblC6fixed = "AB" ∧
    fixTablesIn (.elem "article" [] [tblC6]) = some (.elem "article" [] [tblC6fixed]) :=
  ⟨rfl, rfl, rfl, rfl, rfl, rfl, rfl⟩

/-! ## Claim C7 -/

def docC7 : Doc := ⟨head0, .elem "body" [] [.elem "h1" [] [.text " x "]]⟩

/-- C7 counterexample: a body with exactly one h1 whose text is padded with
spaces.  The claim states the h1 field is the trimmed text; the source never
trims (removeLineBreakTabs is the identity), so the raw text is returned. -/
theorem C7_counterexample :
    getH1 docC7 true = some " x " ∧
    trimStr " x " = "x" ∧
    getH1 docC7 true ≠ some (trimStr " x ") :=
  ⟨rfl, rfl, by decide⟩

/-- C7 amended: with zero h1 elements the field is the empty string; with
exactly one, or several under useFirstH1, it is the raw (untrimmed) text of
the first h1 whose raw text is nonempty — undefined (none) when every h1
text is empty, and a whitespace-only heading counts as nonempty; with
several h1 and useFirstH1 false it is the empty string. -/
theorem C7_amended (d : Doc) (b : Bool) :
    getH1 d b =
      (if (bodyH1Texts d).length = 0 then some ""
       else if (bodyH1Texts d).length = 1 ∨ b = true then
        ((bodyH1Texts d).filter (fun t => decide (t ≠ ""))).head?
       else some "") := by
  simp only [getH1, getFirstH1]
  rw [collectNonEmpty_eq_filter]
  have hlen : (findAll [Sel.tagS "h1"] d.body).length = (bodyH1Texts d).length := by
    simp [bodyH1Texts]
  rw [hlen]

def docC7w : Doc :=
  ⟨head0, .elem "body" [] [.elem "h1" [] [], .elem "h1" [] [.text "Title"]]⟩

/-- C7 witness: the amended statement at a document with two h1 elements,
the first of which has empty text. -/
theorem C7_amended_witness :
    getH1 docC7w true =
      (if (bodyH1Texts docC7w).length = 0 then some ""
       else if (bodyH1Texts docC7w).length = 1 ∨ true = true then
        ((bodyH1Texts docC7w).filter (fun t => decide (t ≠ ""))).head?
       else some "") :=
  C7_amended docC7w true

/-! ## Claim C8 -/

theorem findImages_sel_nil (d : Doc) (o : Options) : (findImages d [] o).2.2 = [] :=
  (findImages_sel_nil_iff d [] o).mpr rfl

theorem findLinks_sel_nil (o : Options) : (findLinks [] o).2 = [] :=
  (findLinks_sel_nil_iff [] o).mpr rfl

/-- Cleaning the empty selection succeeds and yields the empty selection. -/
theorem cleanContent_nil (o : Options) : cleanContent [] o = some [] := by
  simp [cleanContent, countH1, optMapM]

/-- The rendering tail raises the content-not-found error exactly when the
selection it was handed is empty (equivalently, when its html() is null):
cleaning preserves emptiness, an empty cleaned selection serializes to null,
and a nonempty one either renders or raises the table type error instead. -/
theorem renderContent_cnf_iff (mdConv : String → String) (ty : OutType)
    (ti : String) (de h1 : Option String)
    (im : List (Option String × Option String))
    (li : List (Option String × String)) (he : List (String × String))
    (sel : List Node) (o : Options) :
    (renderContent mdConv ty ti de h1 im li he sel o
      = Except.error JsError.contentNotFound) ↔ sel = [] := by
  cases hcc : cleanContent sel o with
  | none =>
    simp only [renderContent, hcc]
    constructor
    · intro h
      simp at h
    · intro h
      subst h
      rw [cleanContent_nil] at hcc
      simp at hcc
  | some sel4 =>
    cases sel4 with
    | nil =>
      simp only [renderContent, hcc, selHtml, List.head?, Option.map_none']
      constructor
      · intro _
        exact (cleanContent_some_nil_iff sel o [] hcc).mp rfl
      · intro _
        trivial
    | cons x xs =>
      simp only [renderContent, hcc, selHtml, List.head?, Option.map_some']
      constructor
      · intro h
        simp at h
      · intro h
        subst h
        rw [cleanContent_nil] at hcc
        simp at hcc

def docC8 : Doc :=
  ⟨head0,
    .elem "body" []
      [.elem "article" []
        [.elem "p" [] [.text "a long enough paragraph"], .elem "table" [] []]]⟩

/-- C8 counterexample: the claim states that apart from the content-not-found
case findContent always returns a complete result.  A table with neither a
thead descendant nor any element child makes addTableHeader read the name of
an undefined first child, so findContent fails with a TypeError although the
chosen subtree (the article) exists and serializes to markup. -/
theorem C8_counterexample :
    findContent idString docC8 OutType.htmlT {} = Except.error JsError.typeError ∧
    (selectContent (cleanHTML docC8 (mergeOptions {})) (mergeOptions {})).2.length = 1 :=
  ⟨rfl, rfl⟩

/-- C8 amended: findContent raises the content-not-found error exactly when
the chosen content selection is empty, which is exactly when it serializes to
null; in every other case it returns a complete result unless the table
repair step meets a table with no thead descendant and no element children,
in which case a type error propagates instead; no partial result is ever
returned. -/
theorem C8_amended (mdConv : String → String) (d : Doc) (ty : OutType)
    (o : UserOptions) :
    (findContent mdConv d ty o = Except.error JsError.contentNotFound ↔
      (selectContent (cleanHTML d (mergeOptions o)) (mergeOptions o)).2 = []) := by
  simp only [findContent, jqueryTruthy, if_true]
  rw [renderContent_cnf_iff, findLinks_sel_nil_iff, findImages_sel_nil_iff]

def docC8w : Doc := ⟨head0, .elem "body" [] [.text "zzz"]⟩

/-- C8 witness: the amended equivalence at a document whose body holds only
text, where both sides hold. -/
theorem C8_amended_witness :
    (findContent idString docC8w OutType.htmlT {} = Except.error JsError.contentNotFound ↔
      (selectContent (cleanHTML docC8w (mergeOptions {})) (mergeOptions {})).2 = []) :=
  C8_amended idString docC8w OutType.htmlT {}

/-! ## Claim C9 -/

def docC9 : Doc :=
  ⟨head0,
    .elem "body" []
      [.elem "article" []
        [.elem "p" [] [.text "long enough text with stuff"],
         .elem "img" [("src", "a.png")] []],
       .elem "img" [("src", "b.png")] []]⟩

/-- C9 counterexample: the claim states the images field records every image
of the whole document.  The source records contentSection.find, i.e. only
the images inside the content subtree: with one image inside the selected
article and one outside it in the body, only the inner one is recorded. -/
theorem C9_counterexample :
    (findContent idString docC9 OutType.htmlT {}).map ExtractionResult.images
      = Except.ok [(some "a.png", none)] ∧
    (findAll [Sel.tagS "img"] docC9.body).length = 2 :=
  ⟨rfl, rfl⟩

/-- C9 amended: findImages records src and alt of the images INSIDE the
content selection only (in document order), and when removeImages is set it
afterwards removes every image document-wide: no image element remains in
the body nor in the threaded selection. -/
theorem C9_amended (d : Doc) (sel : List Node) (o : Options)
    (h : o.removeImages = true) :
    (findImages d sel o).1
      = (sel.map (fun s => (findAll [Sel.tagS "img"] s).map imgRecord)).flatten ∧
    findAll [Sel.tagS "img"] (findImages d sel o).2.1.body = [] ∧
    (∀ s2 ∈ (findImages d sel o).2.2, findAll [Sel.tagS "img"] s2 = []) := by
  refine ⟨?_, ?_, ?_⟩
  · simp [findImages, h]
  · simp only [findImages, h, if_true]
    exact findAll_img_removeMatching d.body
  · intro s2 hs2
    simp only [findImages, h, if_true, List.mem_map] at hs2
    obtain ⟨s0, _, rfl⟩ := hs2
    exact findAll_img_removeMatching s0

def docC9w : Doc := ⟨head0, .elem "body" [] [.elem "img" [("src", "w.png")] []]⟩

def selC9w : List Node := [.elem "div" [] []]

/-- C9 witness: the amended statement at a concrete document and selection,
with the default (always true) removeImages option. -/
theorem C9_amended_witness :
    (findImages docC9w selC9w (mergeOptions {})).1
      = (selC9w.map (fun s => (findAll [Sel.tagS "img"] s).map imgRecord)).flatten ∧
    findAll [Sel.tagS "img"] (findImages docC9w selC9w (mergeOptions {})).2.1.body = [] ∧
    (∀ s2 ∈ (findImages docC9w selC9w (mergeOptions {})).2.2,
      findAll [Sel.tagS "img"] s2 = []) :=
  C9_amended docC9w selC9w (mergeOptions {}) rfl

/-! ## Claim C10 -/

def nodeC10 : Node := .elem "div" [] [.elem "a" [] [.text "a  b"]]

def bodyC10 : Node := .elem "body" [] [nodeC10]

def stC10 : CandSt := ⟨[], [[0]], [([0], 6)]⟩

/-- C10: link density is not bounded by one.  The anchor text a-space-space-b
has raw length 4 while the element text collapses to length 3, so the density
is 4/3; one minus it is negative, and in getTopCandidate a candidate with
positive stored score 6 ends with the negative adjusted score minus 2. -/
theorem C10_link_density_exceeds_one :
    getLinkDensity nodeC10 = JsNum.val (4 / 3) ∧
    jsGtRat (getLinkDensity nodeC10) 1 = true ∧
    jsOneMinus (getLinkDensity nodeC10) = JsNum.val (-1 / 3) ∧
    (getTopCandidate bodyC10 stC10).1 = [([0], JsNum.val (-2))] := by
  have h1 : collapsedTextLen nodeC10 = 3 := rfl
  have h2 : linkTextLen nodeC10 = 4 := rfl
  have hden : getLinkDensity nodeC10 = JsNum.val (4 / 3) := by
    simp only [getLinkDensity, h1, h2]
    norm_num
  refine ⟨hden, ?_, ?_, ?_⟩
  · simp only [getLinkDensity, h1, h2, jsGtRat, jsGt]
    norm_num
  · simp only [getLinkDensity, h1, h2, jsOneMinus]
    norm_num
  · have hs : Node.sub? bodyC10 [0] = some nodeC10 := rfl
    have hb : (lookupScore stC10.scores [0]).getD 0 = 6 := rfl
    have hd : adjustScore bodyC10 stC10.scores [0] = JsNum.val (-2) := by
      simp only [adjustScore, hs, hb, hden, jsOneMinus, jsMulRat]
      norm_num
    have hc : stC10.cands = [[0]] := rfl
    show (topLoop bodyC10 stC10.scores [] none stC10.cands).1 = _
    rw [hc]
    simp only [topLoop, hd, List.nil_append]

end FMC
